import Mathlib

/-!
Verification of the `s_app_dir` Rust library (src/lib.rs).

The library resolves per-application standard directories. We shallowly embed
the code: the process environment becomes an explicit `Env` record, the two
`cfg`-selected platform variants (`#[cfg(unix)]` / `#[cfg(windows)]`) become
two Lean functions with `_unix` / `_windows` suffixes, and `std::path`'s
`PathBuf::join` becomes an explicit string function per platform. Every
operation is written in state-passing style (`Env → α × Env`) so that absence
of environment mutation is a provable fact, with pure projections for the
result component.
-/

namespace SAppDir

/-- Model of `std::env::VarError`: `NotPresent`, or `NotUnicode` (the carried
`OsString` payload is never inspected by the library, so it is dropped). -/
inductive VarError where
  | notPresent : VarError
  | notUnicode : VarError
deriving DecidableEq, Repr

/-- The process environment as read by the library: `std::env::var` results
for each variable name, `std::env::home_dir()`, and `std::env::temp_dir()`
(which in `std` is total: it always reports some root). Paths are modelled
as their strings. -/
structure Env where
  vars : String → Except VarError String
  homeDir : Option String
  tempDir : String

/-- `fn result_to_option<T, E>(result: Result<T, E>) -> Option<T>`
(src/lib.rs lines 127-132). -/
def result_to_option {ε α : Type} : Except ε α → Option α
  | .ok v => some v
  | .error _ => none

/-- `pub enum XdgDir { Data, Config, Cache }` (src/lib.rs lines 61-66). -/
inductive XdgDir where
  | Data : XdgDir
  | Config : XdgDir
  | Cache : XdgDir
deriving DecidableEq, Repr

/-- `pub struct AppDir { app_name: String }` (src/lib.rs lines 68-71). -/
structure AppDir where
  app_name : String
deriving DecidableEq, Repr

/-- Unix `Path::is_absolute`: the path has a root, i.e. begins with `/`. -/
def isAbsoluteUnix (s : String) : Bool :=
  match s.data with
  | '/' :: _ => true
  | [] => false
  | _ :: _ => false

/-- Last character of a Unix path is the separator `/`. -/
def lastIsSepUnix (s : String) : Bool :=
  match s.data.getLast? with
  | some '/' => true
  | _ => false

/-- Model of Unix `PathBuf::push` (hence `join`): an absolute argument
replaces the whole path; otherwise the argument is appended, inserting a `/`
separator unless the base is empty or already ends in one. -/
def pathJoinUnix (p q : String) : String :=
  if isAbsoluteUnix q then q
  else if p = "" then q
  else if lastIsSepUnix p then p ++ q
  else p ++ "/" ++ q

/-- A Windows path separator character (`/` or `\`). -/
def isSepWin (c : Char) : Bool := c = '/' || c = '\\'

/-- The string starts with a drive-letter prefix such as `C:`. -/
def winHasDrive (s : String) : Bool :=
  match s.data with
  | c :: ':' :: _ => c.isAlpha
  | _ => false

/-- The string has a root separator at the front (after no prefix). -/
def winHasRoot (s : String) : Bool :=
  match s.data with
  | c :: _ => isSepWin c
  | [] => false

/-- The drive-letter prefix of a Windows path, empty if there is none. -/
def winDrive (s : String) : String :=
  match s.data with
  | c :: ':' :: _ => if c.isAlpha then String.mk [c, ':'] else ""
  | _ => ""

/-- Last character of a Windows path is a separator. -/
def lastIsSepWin (s : String) : Bool :=
  match s.data.getLast? with
  | some c => isSepWin c
  | none => false

/-- Model of Windows `PathBuf::push` (hence `join`) for drive-letter and
rooted paths (UNC and verbatim prefixes are outside the modelled scope): a
prefixed argument replaces the whole path; a rooted argument keeps only the
base's drive; otherwise the argument is appended, inserting a `\` separator
unless the base is empty, ends in a separator, or is a bare drive like `C:`. -/
def pathJoinWindows (p q : String) : String :=
  if winHasDrive q then q
  else if winHasRoot q then winDrive p ++ q
  else if p = "" then q
  else if lastIsSepWin p || (winHasDrive p && p.length == 2) then p ++ q
  else p ++ "\\" ++ q

/-- State-passing read of `std::env::var(key)`: returns the value and the
unchanged environment (reading mutates nothing). -/
def envVar (key : String) : Env → Except VarError String × Env :=
  fun e => (e.vars key, e)

/-- State-passing read of `std::env::home_dir()`. -/
def envHomeDir : Env → Option String × Env :=
  fun e => (e.homeDir, e)

/-- State-passing read of `std::env::temp_dir()`. -/
def envTempDir : Env → String × Env :=
  fun e => (e.tempDir, e)

/-- `pub fn new(app_name: &str) -> AppDir` (src/lib.rs lines 74-76). -/
def AppDir.new (app_name : String) : AppDir :=
  { app_name := app_name }

/-- `#[cfg(unix)] fn xdg_dir_with_fallback` (src/lib.rs lines 78-85):
`result_to_option(env::var(key)).map(|dir| PathBuf::new().join(&dir))
  .or(env::home_dir().map(|p| p.join(fallback)))`.
Note `Option::or` evaluates its argument eagerly, so `home_dir` is read even
when the variable is set; the embedding reads it unconditionally too. -/
def xdg_dir_with_fallback_unix (key fallback : String) :
    Env → Option String × Env :=
  fun e =>
    let (r, e1) := envVar key e
    let first := (result_to_option r).map (fun dir => pathJoinUnix "" dir)
    let (h, e2) := envHomeDir e1
    (first.or (h.map (fun p => pathJoinUnix p fallback)), e2)

/-- `#[cfg(windows)] fn xdg_dir_with_fallback` (src/lib.rs lines 87-94):
`result_to_option(env::var(key)).map(|dir| PathBuf::new().join(&dir))
  .or(result_to_option(env::var("APPDATA")).map(|dir| PathBuf::new().join(&dir)))`.
The `fallback` argument is ignored on Windows. -/
def xdg_dir_with_fallback_windows (key : String) (_fallback : String) :
    Env → Option String × Env :=
  fun e =>
    let (r, e1) := envVar key e
    let first := (result_to_option r).map (fun dir => pathJoinWindows "" dir)
    let (r2, e2) := envVar "APPDATA" e1
    (first.or ((result_to_option r2).map (fun dir => pathJoinWindows "" dir)), e2)

/-- `pub fn xdg_dir(&self, xdg: XdgDir)` (src/lib.rs lines 96-103), Unix
build: dispatch on the category to the fallback helper, then
`.map(|base| PathBuf::new().join(&base).join(&self.app_name))`. -/
def AppDir.xdg_dir_unix (a : AppDir) (xdg : XdgDir) :
    Env → Option String × Env :=
  fun e =>
    let (xdgDir, e1) :=
      match xdg with
      | .Data => xdg_dir_with_fallback_unix "XDG_DATA_HOME" ".local/share" e
      | .Config => xdg_dir_with_fallback_unix "XDG_CONFIG_HOME" ".config" e
      | .Cache => xdg_dir_with_fallback_unix "XDG_CACHE_HOME" ".cache" e
    (xdgDir.map (fun base =>
      pathJoinUnix (pathJoinUnix "" base) a.app_name), e1)

/-- `pub fn xdg_dir(&self, xdg: XdgDir)` (src/lib.rs lines 96-103), Windows
build: same dispatch, with the Windows fallback helper and Windows joins. -/
def AppDir.xdg_dir_windows (a : AppDir) (xdg : XdgDir) :
    Env → Option String × Env :=
  fun e =>
    let (xdgDir, e1) :=
      match xdg with
      | .Data => xdg_dir_with_fallback_windows "XDG_DATA_HOME" ".local/share" e
      | .Config => xdg_dir_with_fallback_windows "XDG_CONFIG_HOME" ".config" e
      | .Cache => xdg_dir_with_fallback_windows "XDG_CACHE_HOME" ".cache" e
    (xdgDir.map (fun base =>
      pathJoinWindows (pathJoinWindows "" base) a.app_name), e1)

/-- `#[cfg(unix)] pub fn user_data_dir(&self)` (src/lib.rs lines 105-108):
`env::home_dir().map(|p| p.join(".".to_string() + &self.app_name))`. -/
def AppDir.user_data_dir_unix (a : AppDir) : Env → Option String × Env :=
  fun e =>
    let (h, e1) := envHomeDir e
    (h.map (fun p => pathJoinUnix p ("." ++ a.app_name)), e1)

/-- `#[cfg(windows)] pub fn user_data_dir(&self)` (src/lib.rs lines 110-114):
`result_to_option(env::var("APPDATA")).map(|v| PathBuf::new().join(v).join(&self.app_name))`. -/
def AppDir.user_data_dir_windows (a : AppDir) : Env → Option String × Env :=
  fun e =>
    let (r, e1) := envVar "APPDATA" e
    ((result_to_option r).map (fun v =>
      pathJoinWindows (pathJoinWindows "" v) a.app_name), e1)

/-- `pub fn temp_dir(&self)` (src/lib.rs lines 116-118), Unix build:
`env::temp_dir().join(&self.app_name)`. Total: the result is a path, never
an `Option`. -/
def AppDir.temp_dir_unix (a : AppDir) : Env → String × Env :=
  fun e =>
    let (t, e1) := envTempDir e
    (pathJoinUnix t a.app_name, e1)

/-- `pub fn temp_dir(&self)` (src/lib.rs lines 116-118), Windows build. -/
def AppDir.temp_dir_windows (a : AppDir) : Env → String × Env :=
  fun e =>
    let (t, e1) := envTempDir e
    (pathJoinWindows t a.app_name, e1)

/-- `impl Display for AppDir` (src/lib.rs lines 121-125): formats the
application name verbatim (`self.app_name.fmt(f)`). -/
def AppDir.toDisplayString (a : AppDir) : String :=
  a.app_name

/-- The environment variable `xdg_dir` reads for each category. -/
def xdgKey : XdgDir → String
  | .Data => "XDG_DATA_HOME"
  | .Config => "XDG_CONFIG_HOME"
  | .Cache => "XDG_CACHE_HOME"

/-- The conventional home-relative fallback `xdg_dir` uses per category on
Unix. -/
def xdgFallback : XdgDir → String
  | .Data => ".local/share"
  | .Config => ".config"
  | .Cache => ".cache"

/-- Run a state-passing operation twice in sequence, returning both results
and the final environment. -/
def runTwice {α : Type} (m : Env → α × Env) : Env → (α × α) × Env :=
  fun e => (((m e).1, (m (m e).2).1), (m (m e).2).2)

/-- An operation is observably pure: it leaves the environment unchanged, and
running it twice in sequence yields two equal results and the original
environment. -/
def pureOp {α : Type} (m : Env → α × Env) : Prop :=
  ∀ e : Env, (m e).2 = e ∧
    (runTwice m e).1.1 = (runTwice m e).1.2 ∧ (runTwice m e).2 = e

theorem pureOp_of_preserves {α : Type} (m : Env → α × Env)
    (h : ∀ e, (m e).2 = e) : pureOp m := by
  intro e
  refine ⟨h e, ?_, ?_⟩ <;> simp [runTwice, h e]

theorem pathJoinUnix_empty_left (q : String) : pathJoinUnix "" q = q := by
  unfold pathJoinUnix
  split
  · rfl
  · simp

theorem winDrive_empty : winDrive "" = "" := rfl

theorem pathJoinWindows_empty_left (q : String) : pathJoinWindows "" q = q := by
  unfold pathJoinWindows
  split
  · rfl
  · split
    · rw [winDrive_empty]
      exact String.empty_append q
    · simp

theorem pathJoinUnix_absolute (p q : String) (h : isAbsoluteUnix q = true) :
    pathJoinUnix p q = q := by
  simp [pathJoinUnix, h]

theorem pathJoinWindows_drive (p q : String) (h : winHasDrive q = true) :
    pathJoinWindows p q = q := by
  simp [pathJoinWindows, h]

theorem xdg_dir_unix_eq (a : AppDir) (d : XdgDir) (e : Env) :
    a.xdg_dir_unix d e =
      ((xdg_dir_with_fallback_unix (xdgKey d) (xdgFallback d) e).1.map
        (fun base => pathJoinUnix (pathJoinUnix "" base) a.app_name),
       (xdg_dir_with_fallback_unix (xdgKey d) (xdgFallback d) e).2) := by
  cases d <;> rfl

theorem xdg_dir_windows_eq (a : AppDir) (d : XdgDir) (e : Env) :
    a.xdg_dir_windows d e =
      ((xdg_dir_with_fallback_windows (xdgKey d) (xdgFallback d) e).1.map
        (fun base => pathJoinWindows (pathJoinWindows "" base) a.app_name),
       (xdg_dir_with_fallback_windows (xdgKey d) (xdgFallback d) e).2) := by
  cases d <;> rfl

/-- An environment in which exactly one variable is set (to `v`), the home
directory is undeterminable, and the temp root is `/tmp`. -/
def envSet (k v : String) : Env :=
  { vars := fun key => if key = k then .ok v else .error .notPresent
    homeDir := none
    tempDir := "/tmp" }

/-- An environment with every variable unset and home directory
`/home/alice`. -/
def envHome : Env :=
  { vars := fun _ => .error .notPresent
    homeDir := some "/home/alice"
    tempDir := "/tmp" }

theorem xdg_dir_unix_of_var_ok (e : Env) (n v : String) (d : XdgDir)
    (h : e.vars (xdgKey d) = .ok v) :
    ((AppDir.new n).xdg_dir_unix d e).1 = some (pathJoinUnix v n) := by
  rw [xdg_dir_unix_eq]
  cases d <;>
    simp_all [xdg_dir_with_fallback_unix, envVar, envHomeDir,
      result_to_option, xdgKey, Option.or, pathJoinUnix_empty_left, AppDir.new]

/-- C2: if the category's environment variable is set to `v`, `xdg_dir`
returns `v` joined with the application name, whatever the home directory
holds. -/
theorem claim_C2 (e : Env) (n v : String) (d : XdgDir)
    (h : e.vars (xdgKey d) = .ok v) :
    ((AppDir.new n).xdg_dir_unix d e).1 = some (pathJoinUnix v n) :=
  xdg_dir_unix_of_var_ok e n v d h

/-- C2 witness: `XDG_DATA_HOME = /x`, home undeterminable, application
`app`. -/
theorem claim_C2_witness :
    (envSet "XDG_DATA_HOME" "/x").vars (xdgKey .Data) = .ok "/x" ∧
    ((AppDir.new "app").xdg_dir_unix .Data (envSet "XDG_DATA_HOME" "/x")).1 =
      some (pathJoinUnix "/x" "app") :=
  ⟨rfl, claim_C2 (envSet "XDG_DATA_HOME" "/x") "app" "/x" .Data rfl⟩

/-- C3: with the category variable unset on Unix, `xdg_dir` maps the home
directory (when determinable) through the conventional relative path and the
application name, and is absent when the home directory is undeterminable. -/
theorem claim_C3 (e : Env) (n : String) (d : XdgDir)
    (h : e.vars (xdgKey d) = .error .notPresent) :
    ((AppDir.new n).xdg_dir_unix d e).1 =
      e.homeDir.map (fun hd =>
        pathJoinUnix (pathJoinUnix hd (xdgFallback d)) n) := by
  rw [xdg_dir_unix_eq]
  cases d <;> cases hh : e.homeDir <;>
    simp_all [xdg_dir_with_fallback_unix, envVar, envHomeDir,
      result_to_option, xdgKey, xdgFallback, Option.or,
      pathJoinUnix_empty_left, AppDir.new]

/-- C3 witness: all variables unset, home `/home/alice`, category Config,
application `foo-bar-app`; the resolved path is
`/home/alice/.config/foo-bar-app`. -/
theorem claim_C3_witness :
    envHome.vars (xdgKey .Config) = .error .notPresent ∧
    ((AppDir.new "foo-bar-app").xdg_dir_unix .Config envHome).1 =
      envHome.homeDir.map (fun hd =>
        pathJoinUnix (pathJoinUnix hd (xdgFallback .Config)) "foo-bar-app") ∧
    envHome.homeDir.map (fun hd =>
        pathJoinUnix (pathJoinUnix hd (xdgFallback .Config)) "foo-bar-app") =
      some "/home/alice/.config/foo-bar-app" :=
  ⟨rfl, claim_C3 envHome "foo-bar-app" .Config rfl, by decide⟩

/-- C4: an empty-string override counts as set: the result is the empty base
joined with the application name (which is just the name, a relative path),
not the home fallback, for every home-directory state. -/
theorem claim_C4 (e : Env) (n : String) (d : XdgDir)
    (h : e.vars (xdgKey d) = .ok "") :
    ((AppDir.new n).xdg_dir_unix d e).1 = some (pathJoinUnix "" n) ∧
    pathJoinUnix "" n = n :=
  ⟨xdg_dir_unix_of_var_ok e n "" d h, pathJoinUnix_empty_left n⟩

/-- C4 witness: `XDG_CACHE_HOME` set to the empty string while home is
`/home/alice`; the result is the bare application name, not a home path. -/
theorem claim_C4_witness :
    { envHome with
        vars := fun key =>
          if key = "XDG_CACHE_HOME" then .ok "" else .error .notPresent
      : Env }.vars (xdgKey .Cache) = .ok "" ∧
    (((AppDir.new "app").xdg_dir_unix .Cache
      { envHome with
          vars := fun key =>
            if key = "XDG_CACHE_HOME" then .ok "" else .error .notPresent }).1 =
        some (pathJoinUnix "" "app") ∧
      pathJoinUnix "" "app" = "app") :=
  ⟨rfl, claim_C4
    { envHome with
        vars := fun key =>
          if key = "XDG_CACHE_HOME" then .ok "" else .error .notPresent }
    "app" .Cache rfl⟩

/-- An environment with both `XDG_DATA_HOME` and `APPDATA` set, as a Windows
process may have. -/
def envXdgWin : Env :=
  { vars := fun k =>
      if k = "XDG_DATA_HOME" then .ok "x"
      else if k = "APPDATA" then .ok "a"
      else .error .notPresent
    homeDir := none
    tempDir := "t" }

/-- C1, counterexample: on Windows the category variables are consulted. With
`XDG_DATA_HOME = x` and `APPDATA = a`, `xdg_dir(Data)` is not `a` joined with
the name (it is `x` joined with the name). -/
theorem claim_C1_counterexample :
    envXdgWin.vars "APPDATA" = .ok "a" ∧
    ((AppDir.new "n").xdg_dir_windows .Data envXdgWin).1 ≠
      some (pathJoinWindows "a" "n") := by
  refine ⟨rfl, ?_⟩
  decide

theorem xdg_dir_with_fallback_windows_fst (key fb : String) (e : Env) :
    (xdg_dir_with_fallback_windows key fb e).1 =
      ((result_to_option (e.vars key)).map
        (fun dir => pathJoinWindows "" dir)).or
      ((result_to_option (e.vars "APPDATA")).map
        (fun dir => pathJoinWindows "" dir)) := rfl

/-- C1, amended: on Windows `xdg_dir` first consults the category variable;
if it is set to `v` the result is `v` joined with the name, otherwise it is
`APPDATA` joined with the name when `APPDATA` is set, and absent when both
are unavailable. -/
theorem claim_C1_amended (e : Env) (n : String) (d : XdgDir) :
    ((AppDir.new n).xdg_dir_windows d e).1 =
      match result_to_option (e.vars (xdgKey d)) with
      | some v => some (pathJoinWindows v n)
      | none => (result_to_option (e.vars "APPDATA")).map
          (fun a => pathJoinWindows a n) := by
  rw [xdg_dir_windows_eq]
  rw [xdg_dir_with_fallback_windows_fst]
  cases hk : result_to_option (e.vars (xdgKey d)) <;>
    cases ha : result_to_option (e.vars "APPDATA") <;>
      simp [Option.or, pathJoinWindows_empty_left, AppDir.new]

/-- C5: `user_data_dir` on Unix is the home directory joined with the
dot-prefixed name (absent when home is undeterminable); on Windows it is
`APPDATA` joined with the name (absent when `APPDATA` is unavailable). -/
theorem claim_C5 (e : Env) (n : String) :
    ((AppDir.new n).user_data_dir_unix e).1 =
      e.homeDir.map (fun hd => pathJoinUnix hd ("." ++ n)) ∧
    ((AppDir.new n).user_data_dir_windows e).1 =
      (result_to_option (e.vars "APPDATA")).map
        (fun v => pathJoinWindows v n) := by
  refine ⟨rfl, ?_⟩
  cases ha : result_to_option (e.vars "APPDATA") <;>
    simp [AppDir.user_data_dir_windows, envVar, ha,
      pathJoinWindows_empty_left, AppDir.new]

/-- C6: `temp_dir` is total on both platforms — its result type is a path,
not an optional — and equals the platform temp root joined with the
application name. -/
theorem claim_C6 (e : Env) (n : String) :
    ((AppDir.new n).temp_dir_unix e).1 = pathJoinUnix e.tempDir n ∧
    ((AppDir.new n).temp_dir_windows e).1 = pathJoinWindows e.tempDir n :=
  ⟨rfl, rfl⟩

/-- C7: every resolver operation is observably pure — it leaves the
environment unchanged, and two successive calls under that unchanged
environment return equal results. -/
theorem claim_C7 (n : String) (d : XdgDir) :
    pureOp ((AppDir.new n).xdg_dir_unix d) ∧
    pureOp ((AppDir.new n).xdg_dir_windows d) ∧
    pureOp (AppDir.new n).user_data_dir_unix ∧
    pureOp (AppDir.new n).user_data_dir_windows ∧
    pureOp (AppDir.new n).temp_dir_unix ∧
    pureOp (AppDir.new n).temp_dir_windows := by
  refine ⟨pureOp_of_preserves _ ?_, pureOp_of_preserves _ ?_,
    pureOp_of_preserves _ ?_, pureOp_of_preserves _ ?_,
    pureOp_of_preserves _ ?_, pureOp_of_preserves _ ?_⟩ <;> intro e
  · cases d <;> rfl
  · cases d <;> rfl
  · rfl
  · rfl
  · rfl
  · rfl

/-- C8: construction followed by display is the identity on the name, with
no validation or transformation, for every string including the empty one. -/
theorem claim_C8 (s : String) :
    (AppDir.new s).toDisplayString = s ∧ (AppDir.new s).app_name = s :=
  ⟨rfl, rfl⟩

/-- C9: when the application name is itself absolute (Unix) or drive-prefixed
(Windows), the final join discards the resolved base entirely: whatever base
the fallback chain produced, the result is the name alone. -/
theorem claim_C9 (e : Env) (n m : String) (d : XdgDir)
    (hn : isAbsoluteUnix n = true) (hm : winHasDrive m = true) :
    ((AppDir.new n).xdg_dir_unix d e).1 =
      ((xdg_dir_with_fallback_unix (xdgKey d) (xdgFallback d) e).1).map
        (fun _ => n) ∧
    ((AppDir.new n).temp_dir_unix e).1 = n ∧
    ((AppDir.new m).xdg_dir_windows d e).1 =
      ((xdg_dir_with_fallback_windows (xdgKey d) (xdgFallback d) e).1).map
        (fun _ => m) ∧
    ((AppDir.new m).temp_dir_windows e).1 = m ∧
    ((AppDir.new m).user_data_dir_windows e).1 =
      (result_to_option (e.vars "APPDATA")).map (fun _ => m) := by
  refine ⟨?_, ?_, ?_, ?_, ?_⟩
  · rw [xdg_dir_unix_eq]
    cases ho : (xdg_dir_with_fallback_unix (xdgKey d) (xdgFallback d) e).1 <;>
      simp [AppDir.new, pathJoinUnix_absolute _ _ hn]
  · exact pathJoinUnix_absolute e.tempDir n hn
  · rw [xdg_dir_windows_eq]
    cases ho :
        (xdg_dir_with_fallback_windows (xdgKey d) (xdgFallback d) e).1 <;>
      simp [AppDir.new, pathJoinWindows_drive _ _ hm]
  · exact pathJoinWindows_drive e.tempDir m hm
  · cases ha : result_to_option (e.vars "APPDATA") <;>
      simp [AppDir.user_data_dir_windows, envVar, ha, AppDir.new,
        pathJoinWindows_drive _ _ hm]

/-- C9 witness: name `/abs` (Unix-absolute), name `C:app` (drive-prefixed),
category Data, in the all-unset environment with home `/home/alice`. -/
theorem claim_C9_witness :
    isAbsoluteUnix "/abs" = true ∧ winHasDrive "C:app" = true ∧
    (((AppDir.new "/abs").xdg_dir_unix .Data envHome).1 =
      ((xdg_dir_with_fallback_unix (xdgKey .Data) (xdgFallback .Data)
        envHome).1).map (fun _ => "/abs") ∧
     ((AppDir.new "/abs").temp_dir_unix envHome).1 = "/abs" ∧
     ((AppDir.new "C:app").xdg_dir_windows .Data envHome).1 =
      ((xdg_dir_with_fallback_windows (xdgKey .Data) (xdgFallback .Data)
        envHome).1).map (fun _ => "C:app") ∧
     ((AppDir.new "C:app").temp_dir_windows envHome).1 = "C:app" ∧
     ((AppDir.new "C:app").user_data_dir_windows envHome).1 =
      (result_to_option (envHome.vars "APPDATA")).map (fun _ => "C:app")) :=
  ⟨by decide, by decide,
    claim_C9 envHome "/abs" "C:app" .Data (by decide) (by decide)⟩

/-- An environment whose `XDG_DATA_HOME` holds a non-Unicode value while
`APPDATA` is set and home is `/home/bob`. -/
def envBadVar : Env :=
  { vars := fun k =>
      if k = "XDG_DATA_HOME" then .error .notUnicode
      else if k = "APPDATA" then .ok "a" else .error .notPresent
    homeDir := some "/home/bob"
    tempDir := "/tmp" }

/-- C10: a category variable holding a non-Unicode value is treated exactly
like an unset one — `result_to_option` maps the error to absence, so
`xdg_dir` falls through to the home-directory fallback on Unix and to the
`APPDATA` fallback on Windows. -/
theorem claim_C10 (e : Env) (n : String) (d : XdgDir)
    (h : e.vars (xdgKey d) = .error .notUnicode) :
    ((AppDir.new n).xdg_dir_unix d e).1 =
      e.homeDir.map (fun hd =>
        pathJoinUnix (pathJoinUnix hd (xdgFallback d)) n) ∧
    ((AppDir.new n).xdg_dir_windows d e).1 =
      (result_to_option (e.vars "APPDATA")).map
        (fun a => pathJoinWindows a n) := by
  constructor
  · rw [xdg_dir_unix_eq]
    cases hh : e.homeDir <;>
      simp_all [xdg_dir_with_fallback_unix, envVar, envHomeDir,
        result_to_option, Option.or, pathJoinUnix_empty_left, AppDir.new]
  · rw [xdg_dir_windows_eq, xdg_dir_with_fallback_windows_fst, h]
    cases ha : result_to_option (e.vars "APPDATA") <;>
      simp [result_to_option, Option.or, pathJoinWindows_empty_left,
        AppDir.new, ha]

/-- C10 witness: `XDG_DATA_HOME` non-Unicode, `APPDATA = a`, home
`/home/bob`, application `app`. -/
theorem claim_C10_witness :
    envBadVar.vars (xdgKey .Data) = .error .notUnicode ∧
    (((AppDir.new "app").xdg_dir_unix .Data envBadVar).1 =
      envBadVar.homeDir.map (fun hd =>
        pathJoinUnix (pathJoinUnix hd (xdgFallback .Data)) "app") ∧
     ((AppDir.new "app").xdg_dir_windows .Data envBadVar).1 =
      (result_to_option (envBadVar.vars "APPDATA")).map
        (fun a => pathJoinWindows a "app")) :=
  ⟨rfl, claim_C10 envBadVar "app" .Data rfl⟩

end SAppDir
